import Mathlib

/-!
Shallow embedding of the PyAMI IBIS-model core (files `ibis_base.py`,
`ibis_model.py`, `ibis_file.py`, `ami_parse.py`) for verifying the
natural-language specification.  Machine floats are modelled by `ℚ`;
Python dictionaries by ordered association lists; Python exceptions by
`Except String` / `Option`.
-/

namespace PyAMI

/-- Ordered association-list lookup, modelling Python `dict[key]`
(first binding wins; parsed IBIS dictionaries have unique keys). -/
def alookup {α : Type} (l : List (String × α)) (k : String) : Option α :=
  match l with
  | [] => none
  | (k', v) :: rest => if k' = k then some v else alookup rest k

instance {e a : Type} [DecidableEq e] [DecidableEq a] :
    DecidableEq (Except e a) := fun x y =>
  match x, y with
  | .error u, .error u' =>
    if h : u = u' then isTrue (by rw [h])
    else isFalse (fun hh => h (by cases hh; rfl))
  | .ok v, .ok v' =>
    if h : v = v' then isTrue (by rw [h])
    else isFalse (fun hh => h (by cases hh; rfl))
  | .error _, .ok _ => isFalse (fun hh => by cases hh)
  | .ok _, .error _ => isFalse (fun hh => by cases hh)

/-- Python `str.lower()` (structurally recursive so that concrete
strings evaluate). -/
def pyLower (s : String) : String := ⟨s.data.map Char.toLower⟩

/-- Python `max` over a list (`none` models `ValueError` on an empty list). -/
def pyMaxO (l : List ℚ) : Option ℚ :=
  match l with
  | [] => none
  | x :: xs => some (xs.foldl max x)

/-- Python `max` in the `Except` monad. -/
def pyMax (l : List ℚ) : Except String ℚ :=
  match pyMaxO l with
  | some m => .ok m
  | none => .error "ValueError: max() arg is an empty sequence"

/-- Python sequence indexing with negative-index wraparound:
`l[i]` for `i ≥ 0` is `l.get? i`, for `i < 0` it is `l[len+i]`;
out of range raises `IndexError`. -/
def pyGet (l : List ℚ) (i : Int) : Except String ℚ :=
  if 0 ≤ i then
    match l.get? i.toNat with
    | some x => .ok x
    | none => .error "IndexError"
  else if (-i).toNat ≤ l.length then
    match l.get? (l.length - (-i).toNat) with
    | some x => .ok x
    | none => .error "IndexError"
  else .error "IndexError"

/-- `l.get?` in the `Except` monad (Python `l[i]` for `i ≥ 0`). -/
def exGet (l : List ℚ) (i : Nat) : Except String ℚ :=
  match l.get? i with
  | some x => .ok x
  | none => .error "IndexError"

/-- Python truthiness of an optional float (`None` and `0.0` are falsy),
as used by `if vmeas:` in `Model.__init__`. -/
def optTruthy (v : Option ℚ) : Bool :=
  match v with
  | none => false
  | some q => decide (q ≠ 0)

/-- `calcZ` from `ibis_model.Model.__init__`: threshold is `vmeas` when
truthy, else `max(vs)/2`; `ix` is the first index with voltage `≥`
threshold (`np.where(...)[0][0]`, `IndexError` when none); the result is
`|(vs[ix] - vs[ix-1]) / (ivals[ix] - ivals[ix-1])|` with Python
negative-index wraparound when `ix = 0`. -/
def calcZ (vmeas : Option ℚ) (vs ivals : List ℚ) : Except String ℚ := do
  let thresh ← if optTruthy vmeas then .ok (vmeas.getD 0)
               else (pyMax vs).map (fun m => m / 2)
  let ix ← match vs.findIdx? (fun v => decide (thresh ≤ v)) with
           | some i => Except.ok i
           | none => Except.error "IndexError"
  let v1 ← pyGet vs ix
  let v0 ← pyGet vs ((ix : Int) - 1)
  let i1 ← pyGet ivals ix
  let i0 ← pyGet ivals ((ix : Int) - 1)
  if i1 - i0 = 0 then .error "ZeroDivisionError"
  else .ok |(v1 - v0) / (i1 - i0)|

/-- One I-V sample `(v, (ityp, imin, imax))`. -/
def IVSample : Type := ℚ × ℚ × ℚ × ℚ

instance : DecidableEq IVSample := by unfold IVSample; infer_instance

/-- `proc_iv` from `ibis_model.Model.__init__`, restricted to the data
actually used for `zout`: checks for at least 2 samples, unzips, and
computes `calcZ` on each of the three current traces (the lazy `map` in
the source is forced whole by `list(...)`). -/
def proc_iv_zs (vmeas : Option ℚ) (xs : List IVSample) :
    Except String (List ℚ) := do
  if xs.length < 2 then
    throw "Insufficient number of I-V data points!"
  let vs := xs.map (fun s => s.1)
  let ityps := xs.map (fun s => s.2.1)
  let imins := xs.map (fun s => s.2.2.1)
  let imaxs := xs.map (fun s => s.2.2.2)
  let z1 ← calcZ vmeas vs ityps
  let z2 ← calcZ vmeas vs imins
  let z3 ← calcZ vmeas vs imaxs
  pure [z1, z2, z3]

/-- The `[Ramp]` sub-dictionary: rising and falling rate triples. -/
structure Ramp where
  rising : List ℚ
  falling : List ℚ
deriving DecidableEq

/-- One `[Algorithmic Model]` entry `((os, bits), files)`. -/
def ExecEntry : Type := (String × Int) × List String

instance : DecidableEq ExecEntry := by unfold ExecEntry; infer_instance

/-- The parsed sub-dictionary handed to `ModelBase.__init__`
(`maybe name` in the source becomes an `Option` field). -/
structure SubDict where
  model_type : Option String := none
  c_comp : Option ℚ := none
  cref : Option ℚ := none
  vref : Option ℚ := none
  vmeas : Option ℚ := none
  rref : Option ℚ := none
  temperature_range : Option (List ℚ) := none
  voltage_range : Option (List ℚ) := none
  ramp : Option Ramp := none
  pulldown : Option (List IVSample) := none
  pullup : Option (List IVSample) := none
  algorithmic_model : Option (List ExecEntry) := none
deriving DecidableEq

/-- `is64` from `ModelBase.__init__`: `int(b) == 64`. -/
def is64 (e : ExecEntry) : Bool := e.1.2 == 64

/-- `isWin` from `ModelBase.__init__`: `os.lower() == 'windows'`. -/
def isWin (e : ExecEntry) : Bool := pyLower e.1.1 == "windows"

/-- `getFiles` from `ModelBase.__init__`: file list of the first entry,
else `[]`. -/
def getFiles (x : List ExecEntry) : List String :=
  match x with
  | [] => []
  | e :: _ => e.2

/-- `splitExecs` from `ModelBase.__init__`: partition by OS, then take
the first entry's file list on each side. -/
def splitExecs (fs : List ExecEntry) : List String × List String :=
  let p := fs.partition isWin
  (getFiles p.1, getFiles p.2)

/-- The four per-platform executable lists
`(exec32Wins, exec32Lins, exec64Wins, exec64Lins)` computed by
`ModelBase.__init__` from the `[Algorithmic Model]` table. -/
def splitAll (am : Option (List ExecEntry)) :
    List String × List String × List String × List String :=
  match am with
  | none => ([], [], [], [])
  | some execs =>
    let p := execs.partition is64
    let s32 := splitExecs p.2
    let s64 := splitExecs p.1
    (s32.1, s32.2, s64.1, s64.2)

/-- The state produced by a successful `Model` construction. -/
structure ModelState where
  mtype : String
  vmeas : Option ℚ
  vrange : List ℚ
  slew : Option ℚ
  zout : Option ℚ
  exec32Wins : List String
  exec32Lins : List String
  exec64Wins : List String
  exec64Lins : List String
  subDict : SubDict
deriving DecidableEq

/-- `ModelBase.__init__` (`ibis_base.py`): required-keyword checks
(Python truthiness: `None` and empty are falsy), slew-rate derivation
for Output/I_O models, and executable partitioning. -/
def modelBaseInit (d : SubDict) : Except String ModelState := do
  let mtype ← match d.model_type with
    | some s => if s = "" then Except.error "Missing Model_type!" else Except.ok s
    | none => Except.error "Missing Model_type!"
  let vrange ← match d.voltage_range with
    | some l => if l = [] then Except.error "Missing [Voltage Range]!" else Except.ok l
    | none => Except.error "Missing [Voltage Range]!"
  let mt := pyLower mtype
  let slew ← if mt == "output" || mt == "i/o" then do
      if d.pulldown.isNone || d.pullup.isNone then
        throw "Missing I-V curves!"
      match d.ramp with
      | none => Except.error "Missing [Ramp]!"
      | some ramp => do
        let r ← exGet ramp.rising 0
        let f ← exGet ramp.falling 0
        pure (some ((r + f) / 2000000000))
    else pure none
  let ex := splitAll d.algorithmic_model
  pure { mtype := mtype, vmeas := d.vmeas, vrange := vrange, slew := slew,
         zout := none,
         exec32Wins := ex.1, exec32Lins := ex.2.1,
         exec64Wins := ex.2.2.1, exec64Lins := ex.2.2.2,
         subDict := d }

/-- The `zout` computation of `ibis_model.Model.__init__`:
`(list(pd_zs)[0] + list(pu_zs)[0]) / 2`. -/
def zoutOf (vmeas : Option ℚ) (pd pu : List IVSample) : Except String ℚ := do
  let pd_zs ← proc_iv_zs vmeas pd
  let pu_zs ← proc_iv_zs vmeas pu
  let z0 ← exGet pd_zs 0
  let z1 ← exGet pu_zs 0
  pure ((z0 + z1) / 2)

/-- `ibis_model.Model.__init__`: super-class initialization, then the
impedance derivation for Output/I_O models. -/
def modelInit (d : SubDict) : Except String ModelState := do
  let base ← modelBaseInit d
  let mt := pyLower base.mtype
  if mt == "output" || mt == "i/o" then
    match d.pulldown, d.pullup with
    | some pd, some pu => do
      let z ← zoutOf base.vmeas pd pu
      pure { base with zout := some z }
    | _, _ => throw "Missing I-V curves!"
  else pure base

/-! ### Descriptor model and cascading selection (`ibis_base.py`, `ibis_file.py`) -/

/-- A `[Component]` object as built by the parser: manufacturer,
package, and the pin dictionary `pin-name ↦ (model-or-selector name,
RLC sub-dictionary)`. -/
structure CompObj where
  mfr : String
  pkg : String
  pins : List (String × String × List (String × ℚ))
deriving DecidableEq

/-- The top-level parsed IBIS mapping (`model_dict`): optional sections
model absent dictionary keys. -/
structure Descriptor where
  components : Option (List (String × CompObj)) := none
  models : Option (List (String × ModelState)) := none
  model_selectors : Option (List (String × List (String × String))) := none
  ibis_ver : Option ℚ := none
  file_name : Option String := none
  file_rev : Option String := none
  date : Option String := none
deriving DecidableEq

/-- The spec's `MissingSectionError`: the error raised by
`IBISModelBase.__init__` names the missing section and echoes the
parser diagnostics string. -/
inductive SectionError where
  | missing (sec : String) (diagnostics : String)
deriving DecidableEq

/-- The state of a successfully constructed `IBISModelBase`. -/
structure IBISState where
  model_dict : Descriptor
  models : List (String × ModelState)
  is_tx : Bool
  ibis_parsing_errors : String
deriving DecidableEq

/-- `IBISModelBase.__init__` (`ibis_base.py` lines 100–115): validates
that `components` and `models` are present and non-empty, else raises,
naming the section and echoing the parser messages. -/
def ibisBaseInit (d : Descriptor) (err_str : String) (is_tx : Bool) :
    Except SectionError IBISState :=
  match d.components with
  | none => .error (.missing "components" err_str)
  | some comps =>
    if comps.isEmpty then .error (.missing "components" err_str)
    else
      match d.models with
      | none => .error (.missing "models" err_str)
      | some ms =>
        if ms.isEmpty then .error (.missing "models" err_str)
        else .ok { model_dict := d, models := ms, is_tx := is_tx,
                   ibis_parsing_errors := err_str }

/-- `IBISModelBase.get_models`: a name found in `model_selectors`
resolves to the first components of its alternative list, otherwise to
the singleton of itself. -/
def get_models (d : Descriptor) (mname : String) : List String :=
  match d.model_selectors with
  | some sels =>
    match alookup sels mname with
    | some prs => prs.map Prod.fst
    | none => [mname]
  | none => [mname]

/-- `pin_ok` from `IBISModelBase.get_pins`: looks up the pin's model
name, resolves selectors, fetches the first resolved model, and tests
its type; `none` models a raised `KeyError`/`IndexError`. -/
def pin_ok (d : Descriptor) (models : List (String × ModelState))
    (is_tx : Bool) (pins : List (String × String × List (String × ℚ)))
    (pname : String) : Option Bool := do
  let pr ← alookup pins pname
  let mods := get_models d pr.1
  let m0 ← mods.get? 0
  let mdl ← alookup models m0
  let mod_type := pyLower mdl.mtype
  let tx_ok := (mod_type == "output") || (mod_type == "i/o")
  pure (if is_tx then tx_ok else !tx_ok)

/-- Python `filter` with a possibly raising predicate: `none` when the
predicate raises on any element. -/
def optionFilter {α : Type} (p : α → Option Bool) : List α → Option (List α)
  | [] => some []
  | x :: xs => do
    let b ← p x
    let rest ← optionFilter p xs
    pure (if b then x :: rest else rest)

/-- `IBISModelBase.get_pins`: filter the component's pin names by
`pin_ok`. -/
def get_pins (d : Descriptor) (models : List (String × ModelState))
    (is_tx : Bool) (comp : CompObj) : Option (List String) :=
  optionFilter (pin_ok d models is_tx comp.pins) (comp.pins.map Prod.fst)

/-- The mutable selection state of `IBISModel` (`ibis_file.py`):
current component, pin, and model names, and the cached valid pin and
model lists. -/
structure SelState where
  comp : String
  pin : String
  mod : String
  pins : List String
  models : List String
deriving DecidableEq

/-- `IBISModel._pin_changed`: look up the new pin's model name in the
current component, recompute the valid model list, and snap the model
selection to its first element. -/
def pin_changed (d : Descriptor) (compObj : CompObj) (st : SelState)
    (newPin : String) : Option SelState := do
  let pr ← alookup compObj.pins newPin
  let mlist := get_models d pr.1
  let m0 ← mlist.get? 0
  pure { st with pin := newPin, models := mlist, mod := m0 }

/-- `IBISModel._comp_changed`: recompute the valid pin list for the new
component and assign the first element to the `pin` trait.  The Traits
change notification runs `_pin_changed` only when the assigned value
differs from the trait's current value; assigning the same pin name
fires no notification and leaves `models`/`mod` untouched. -/
def comp_changed (d : Descriptor) (models : List (String × ModelState))
    (is_tx : Bool) (st : SelState) (newComp : String) :
    Option SelState := do
  let comps ← d.components
  let compObj ← alookup comps newComp
  let plist ← get_pins d models is_tx compObj
  let p0 ← plist.get? 0
  if p0 = st.pin then
    pure { st with comp := newComp, pins := plist, pin := p0 }
  else
    pin_changed d compObj { st with comp := newComp, pins := plist, pin := p0 } p0

/-! ### Executable resolution (`IBISModel._mod_changed`) -/

/-- The platform-matching file list `fnames` chosen by `_mod_changed`
from the four per-platform lists computed at `ModelBase` construction. -/
def bucketOf (am : Option (List ExecEntry)) (osType osBits : String) :
    List String :=
  let ex := splitAll am
  if pyLower osType == "windows" then
    (if osBits == "64bit" then ex.2.2.1 else ex.1)
  else
    (if osBits == "64bit" then ex.2.2.2 else ex.2.1)

/-- `IBISModel._mod_changed`, executable-resolution part: an empty
`fnames` yields the empty pair; otherwise `fnames[0]` and `fnames[1]`
are read unconditionally (`IndexError` when fewer than two entries). -/
def resolveExec (am : Option (List ExecEntry)) (osType osBits : String) :
    Except String (String × String) :=
  let fnames := bucketOf am osType osBits
  if fnames.isEmpty then .ok ("", "")
  else
    match fnames.get? 0, fnames.get? 1 with
    | some dll, some ami => .ok (dll, ami)
    | _, _ => .error "IndexError: list index out of range"

/-- An entry matches the caller's platform exactly when its bitness
class (64 vs not) and its OS class (Windows vs not, case-insensitive)
both agree with the caller's. -/
def entryMatches (osType osBits : String) (e : ExecEntry) : Bool :=
  (is64 e == (osBits == "64bit")) &&
  (isWin e == (pyLower osType == "windows"))

/-! ### AMI parameter tree and GUI/schema builder (`ami_parse.py`) -/

/-- A Python value stored in an AMI parameter field. -/
inductive PVal where
  | b (x : Bool)
  | num (x : ℚ)
  | s (x : String)
  | lst (xs : List PVal)

mutual

/-- Structural equality of stored values (Python `==` on the value
kinds that occur in AMI parameter fields). -/
def pvalBeq : PVal → PVal → Bool
  | .b x, .b y => x == y
  | .num x, .num y => x == y
  | .s x, .s y => x == y
  | .lst xs, .lst ys => pvalListBeq xs ys
  | _, _ => false

/-- Elementwise equality of value lists. -/
def pvalListBeq : List PVal → List PVal → Bool
  | [], [] => true
  | x :: xs, y :: ys => pvalBeq x y && pvalListBeq xs ys
  | _, _ => false

end

/-- Python truthiness of a `PVal`. -/
def pvTruthy : PVal → Bool
  | .b x => x
  | .num x => decide (x ≠ 0)
  | .s x => decide (x ≠ "")
  | .lst xs => !xs.isEmpty

/-- An `AMIParameter` leaf as consumed by `make_gui_items`
(usage/type/format are the strings the source compares against). -/
structure AMIParameter where
  pusage : String
  ptype : String
  pformat : String
  pvalue : PVal
  pmin : Option PVal := none
  pmax : Option PVal := none
  pdefault : Option PVal := none
  pdescription : String := ""
  plist_tip : List String := []

/-- The trait (editable-field descriptor) attached for one parameter:
`Bool`, `Range`, `Trait(val, dict)`, `Enum`, or a raw read-only value. -/
inductive TraitDesc where
  | boolT (default : PVal)
  | rangeT (lo hi : Option PVal) (val : PVal)
  | mapT (val : String) (mapping : List (String × PVal))
  | enumT (vals : List PVal)
  | valueT (val : PVal)

/-- A traitsui GUI item: a (possibly read-only) named `Item`, a bare
label `Item`, or a `Group` with a label, an orientation flag and
children. -/
inductive GuiItem where
  | item (name tooltip : String) (readOnly : Bool)
  | labelItem (text : String)
  | group (label : String) (horizontal : Bool) (children : List GuiItem)

/-- `isinstance(item, Item)` in `make_gui_items` (both named and label
items are `Item`s; only groups are not). -/
def isItemLike : GuiItem → Bool
  | .group _ _ _ => false
  | _ => true

/-- Python `dict` insertion: an existing key keeps its position but
takes the new value; a new key is appended. -/
def insertUpdate (k : String) (v : PVal) :
    List (String × PVal) → List (String × PVal)
  | [] => [(k, v)]
  | (k', v') :: rest =>
    if k' = k then (k', v) :: rest else (k', v') :: insertUpdate k v rest

/-- `dict(zip(...))`: build a Python dict from pairs, left to right. -/
def pyDict (prs : List (String × PVal)) : List (String × PVal) :=
  prs.foldl (fun acc kv => insertUpdate kv.1 kv.2 acc) []

/-- The leaf case of `make_gui_items`: build the GUI item and trait for
one `AMIParameter`; parameters whose usage is not `In`/`InOut` produce
nothing. `none` models a raised Python exception (empty value list,
non-list value where a list is required). -/
def leafGui (pname : String) (p : AMIParameter) :
    Option (List GuiItem × List (String × TraitDesc)) :=
  if p.pusage = "In" ∨ p.pusage = "InOut" then
    if p.ptype = "Boolean" then
      some ([.item pname p.pdescription false], [(pname, .boolT p.pvalue)])
    else if p.pformat = "Range" then
      some ([.item pname p.pdescription false],
            [(pname, .rangeT p.pmin p.pmax p.pvalue)])
    else if p.pformat = "List" then
      match p.pvalue with
      | .lst pvals =>
        if !p.plist_tip.isEmpty then do
          let tmp := pyDict (p.plist_tip.zip pvals)
          let val0 ← (tmp.map Prod.fst).get? 0
          let val := match p.pdefault with
            | some dflt =>
              if pvTruthy dflt then
                match tmp.find? (fun kv => pvalBeq kv.2 dflt) with
                | some kv => kv.1
                | none => val0
              else val0
            | none => val0
          pure ([.item pname p.pdescription false], [(pname, .mapT val tmp)])
        else do
          let v0 ← pvals.get? 0
          let val := match p.pdefault with
            | some dflt => if pvTruthy dflt then dflt else v0
            | none => v0
          pure ([.item pname p.pdescription false],
                [(pname, .enumT (val :: pvals))])
      | _ => none
    else
      some ([.item pname p.pdescription true], [(pname, .valueT p.pvalue)])
  else some ([], [])

mutual

/-- The nested parameter dictionary walked by `make_gui_items`: an
`AMIParameter` leaf, a plain string (the `description` entry of a
group), or a sub-dictionary. -/
inductive AMIParamTree where
  | leaf (p : AMIParameter)
  | str (s : String)
  | node (children : ParamChildren)

/-- The ordered named children of a sub-dictionary. -/
inductive ParamChildren where
  | nil
  | cons (name : String) (child : AMIParamTree) (rest : ParamChildren)

end

/-- Lookup of a named child (Python `"description" in param` /
`param[subparam_name]`). -/
def childLookup : ParamChildren → String → Option AMIParamTree
  | .nil, _ => none
  | .cons n c rest, k => if n = k then some c else childLookup rest k

/-- The string carried by a `description` entry (non-strings render as
an empty label; they carry no fields either way). -/
def getDesc : AMIParamTree → String
  | .str s => s
  | _ => ""

/-- Code-point lexicographic `≤` on character lists (Python string
comparison). -/
def charListLe : List Char → List Char → Bool
  | [], _ => true
  | _ :: _, [] => false
  | a :: as, b :: bs =>
    if a.toNat < b.toNat then true
    else if b.toNat < a.toNat then false
    else charListLe as bs

/-- Python `≤` on strings: code-point lexicographic order. -/
def pyStrLe (a b : String) : Bool := charListLe a.data b.data

/-- Stable insertion into a name-sorted pair list (Python `list.sort()`
on the sub-parameter names). -/
def insertPair {α : Type} (x : String × α) :
    List (String × α) → List (String × α)
  | [] => [x]
  | y :: ys => if pyStrLe x.1 y.1 then x :: y :: ys else y :: insertPair x ys

/-- Stable sort of a pair list by its string keys. -/
def sortPairs {α : Type} (l : List (String × α)) : List (String × α) :=
  l.foldr insertPair []

mutual

/-- `make_gui_items` from `ami_parse.py`: a leaf produces its item and
trait (nothing for non-`In`/`InOut` usage); a branch recurses into its
children in sorted name order, treats the `description` child as the
group label, collects the named items into one leading untitled group
followed by the sub-groups, and wraps everything in a group labelled
`pname`, horizontal exactly on the first call. -/
def make_gui_items (pname : String) (param : AMIParamTree)
    (first_call : Bool) :
    Option (List GuiItem × List (String × TraitDesc)) :=
  match param with
  | .leaf p => leafGui pname p
  | .str _ => some ([], [])
  | .node children => do
    let recs ← goChildren children
    let sorted := sortPairs recs
    let group_desc := match childLookup children "description" with
      | some t => getDesc t
      | none => ""
    let sub_items := sorted.foldr (fun r acc => r.2.1 ++ acc) []
    let new_traits := sorted.foldr (fun r acc => r.2.2 ++ acc) []
    let parts := sub_items.partition isItemLike
    let sub_items2 := GuiItem.group "" false parts.1 :: parts.2
    pure ([GuiItem.group pname first_call
            (GuiItem.labelItem group_desc :: sub_items2)],
          new_traits)

/-- Recurse into each named child of a branch (the `description` child
is skipped: it contributes no items and no traits). -/
def goChildren (children : ParamChildren) :
    Option (List (String × (List GuiItem × List (String × TraitDesc)))) :=
  match children with
  | .nil => some []
  | .cons n c rest => do
    let r ← if n = "description" then some ([], [])
            else make_gui_items n c false
    let rs ← goChildren rest
    pure ((n, r) :: rs)

end

/-! ### Spec-side definitions for the impedance claims -/

/-- Modelled from the spec: the local resistance at a threshold
crossing — "find the smallest index `i` where voltage ≥ a threshold;
resistance = |Δv / Δi| using samples `i` and `i−1`" (undefined when the
crossing is at index 0 or the current difference vanishes). -/
def specLocalR (thresh : ℚ) (vs cs : List ℚ) : Option ℚ := do
  let i ← vs.findIdx? (fun v => decide (thresh ≤ v))
  if 1 ≤ i then do
    let v1 ← vs.get? i
    let v0 ← vs.get? (i - 1)
    let c1 ← cs.get? i
    let c0 ← cs.get? (i - 1)
    if c1 - c0 = 0 then none else some |(v1 - v0) / (c1 - c0)|
  else none

/-- Threshold per branch, amended reading: `vmeas` when specified, else
half of the branch's *own* maximum voltage. -/
def ownThreshold (vmeas : Option ℚ) (vs : List ℚ) : Option ℚ :=
  match vmeas with
  | some v => some v
  | none => (pyMaxO vs).map (fun m => m / 2)

/-- Spec-side local resistance of one branch with the amended
(per-branch) threshold choice. -/
def specLocalROwn (vmeas : Option ℚ) (vs cs : List ℚ) : Option ℚ := do
  let t ← ownThreshold vmeas vs
  specLocalR t vs cs

/-- Spec-side `zout` with the amended per-branch threshold: the average
of the pulldown-typical and pullup-typical local resistances. -/
def specZoutOwn (vmeas : Option ℚ) (pd pu : List IVSample) : Option ℚ := do
  let rpd ← specLocalROwn vmeas (pd.map (fun x => x.1))
              (pd.map (fun x => x.2.1))
  let rpu ← specLocalROwn vmeas (pu.map (fun x => x.1))
              (pu.map (fun x => x.2.1))
  pure ((rpd + rpu) / 2)

/-- Modelled from the claim's words: the threshold is `vmeas` when
specified, else half of the maximum *pulldown* voltage, for both the
pulldown and the pullup branch. -/
def claimThreshold (vmeas : Option ℚ) (pdvs : List ℚ) : Option ℚ :=
  match vmeas with
  | some v => some v
  | none => (pyMaxO pdvs).map (fun m => m / 2)

/-- `zout` as claim C1 words it: both branches use `claimThreshold`
(half of the maximum pulldown voltage when `vmeas` is unspecified). -/
def specZoutClaim (vmeas : Option ℚ) (pd pu : List IVSample) : Option ℚ := do
  let t ← claimThreshold vmeas (pd.map (fun x => x.1))
  let rpd ← specLocalR t (pd.map (fun x => x.1)) (pd.map (fun x => x.2.1))
  let rpu ← specLocalR t (pu.map (fun x => x.1)) (pu.map (fun x => x.2.1))
  pure ((rpd + rpu) / 2)

/-! ## Theorems -/

/-- The `components` section is absent or empty (the Python condition
`'components' not in model_dict or not model_dict['components']`). -/
def compsMissing (d : Descriptor) : Prop :=
  d.components = none ∨ d.components = some []

/-- The `models` section is absent or empty. -/
def modelsMissing (d : Descriptor) : Prop :=
  d.models = none ∨ d.models = some []

/-- Claim C2: for every input mapping whose `components` or `models`
top-level section is absent or empty, `DescriptorModel` construction
fails with a missing-section error that names the missing section and
echoes the parser diagnostics string; no object is produced. -/
theorem claim_C2 (d : Descriptor) (err : String) (tx : Bool)
    (h : compsMissing d ∨ modelsMissing d) :
    ∃ sec, ibisBaseInit d err tx = .error (.missing sec err) ∧
      ((sec = "components" ∧ compsMissing d) ∨
       (sec = "models" ∧ modelsMissing d)) := by
  rcases hc : d.components with _ | comps
  · exact ⟨"components", by simp [ibisBaseInit, hc],
      Or.inl ⟨rfl, Or.inl hc⟩⟩
  · cases hcomps : comps with
    | nil =>
      refine ⟨"components", by simp [ibisBaseInit, hc, hcomps],
        Or.inl ⟨rfl, Or.inr ?_⟩⟩
      rw [hc, hcomps]
    | cons c cs =>
      have hm : modelsMissing d := by
        rcases h with h | h
        · rcases h with h | h
          · rw [hc] at h; exact absurd h (by simp)
          · rw [hc, hcomps] at h; exact absurd h (by simp)
        · exact h
      rcases hmm : d.models with _ | ms
      · exact ⟨"models", by simp [ibisBaseInit, hc, hcomps, hmm],
          Or.inr ⟨rfl, hm⟩⟩
      · cases hms : ms with
        | nil =>
          exact ⟨"models", by simp [ibisBaseInit, hc, hcomps, hmm, hms],
            Or.inr ⟨rfl, hm⟩⟩
        | cons m rest =>
          exfalso
          rcases hm with h | h
          · rw [hmm] at h; exact absurd h (by simp)
          · rw [hmm, hms] at h; exact absurd h (by simp)

/-- Witness for claim C2 at a concrete descriptor missing its
`components` section. -/
theorem claim_C2_witness :
    (compsMissing {} ∨ modelsMissing {}) ∧
    ∃ sec, ibisBaseInit {} "diag" true = .error (.missing sec "diag") ∧
      ((sec = "components" ∧ compsMissing {}) ∨
       (sec = "models" ∧ modelsMissing {})) :=
  ⟨Or.inl (Or.inl rfl), claim_C2 {} "diag" true (Or.inl (Or.inl rfl))⟩

/-- Claim C6: a name present in `model_selectors` resolves to the list
of every model name in the selector's alternative list, in file order;
any other name resolves to the singleton list of itself. -/
theorem claim_C6 :
    (∀ (d : Descriptor) (mname : String)
       (sels : List (String × List (String × String)))
       (prs : List (String × String)),
       d.model_selectors = some sels → alookup sels mname = some prs →
       get_models d mname = prs.map Prod.fst) ∧
    (∀ (d : Descriptor) (mname : String),
       (∀ sels, d.model_selectors = some sels → alookup sels mname = none) →
       get_models d mname = [mname]) := by
  constructor
  · intro d mname sels prs hsels hfound
    simp [get_models, hsels, hfound]
  · intro d mname habsent
    rcases hsels : d.model_selectors with _ | sels
    · simp [get_models, hsels]
    · simp [get_models, hsels, habsent sels hsels]

/-- A descriptor fixture with one model-selector group of two
alternatives. -/
def selDesc : Descriptor :=
  { model_selectors := some [("sel", [("m1", "a"), ("m2", "b")])] }

/-- Witness for claim C6: a selector group of two alternatives resolves
to both names in order; an unknown name resolves to itself. -/
theorem claim_C6_witness :
    get_models selDesc "sel" = ["m1", "m2"] ∧
    get_models selDesc "plain" = ["plain"] :=
  ⟨claim_C6.1 selDesc "sel" _ [("m1", "a"), ("m2", "b")] rfl rfl,
   claim_C6.2 selDesc "plain" (fun sels hs => by cases hs; rfl)⟩

/-- A minimal Output-model sub-dictionary with unit ramp rates. -/
def slewDict : SubDict :=
  { model_type := some "Output", voltage_range := some [2],
    ramp := some ⟨[1], [1]⟩,
    pulldown := some [(0, 0, 0, 0), (1, 1/50, 1/50, 1/50)],
    pullup := some [(0, 0, 0, 0), (1, 1/50, 1/50, 1/50)] }

/-- Claim C8: for every Output or I_O model, the derived slew rate is
`(rising + falling) / 2e9` volts per nanosecond; in particular unit
rising and falling rates yield exactly `1e-9`. -/
theorem claim_C8 :
    (∀ (d : SubDict) (st : ModelState) (ramp : Ramp) (r f : ℚ),
       modelBaseInit d = .ok st →
       (pyLower st.mtype = "output" ∨ pyLower st.mtype = "i/o") →
       d.ramp = some ramp →
       ramp.rising.get? 0 = some r → ramp.falling.get? 0 = some f →
       st.slew = some ((r + f) / 2000000000)) ∧
    (modelBaseInit slewDict).map ModelState.slew =
      .ok (some (1 / 1000000000)) := by
  constructor
  · intro d st ramp r f h hmt hramp hr hf
    unfold modelBaseInit at h
    simp only [bind, Except.bind, pure, Except.pure, hramp, exGet, hr, hf] at h
    split at h
    next s heq =>
      split at h
      · exact absurd h (by simp)
      · split at h
        next l hl =>
          split at h
          · exact absurd h (by simp)
          · split at h
            next hout =>
              split at h
              · exact absurd h (by simp)
              · cases h; rfl
            next hout =>
              cases h
              simp only at hmt
              rcases hmt with hmt | hmt <;>
                simp [hmt] at hout
        next hl => exact absurd h (by simp)
    next heq => exact absurd h (by simp)
  · have h1 : Except.map ModelState.slew (modelBaseInit slewDict) =
        .ok (some ((1 + 1) / 2000000000 : ℚ)) := rfl
    rw [h1]
    norm_num

/-- The model state produced by `modelBaseInit slewDict`. -/
def slewState : ModelState :=
  { mtype := "Output", vmeas := none, vrange := [2],
    slew := some ((1 + 1) / 2000000000), zout := none,
    exec32Wins := [], exec32Lins := [], exec64Wins := [], exec64Lins := [],
    subDict := slewDict }

/-- Witness for claim C8 at the unit-ramp Output model. -/
theorem claim_C8_witness :
    modelBaseInit slewDict = Except.ok slewState ∧
    pyLower slewState.mtype = "output" ∧
    slewState.slew = some ((1 + 1 : ℚ) / 2000000000) :=
  ⟨rfl, rfl,
   claim_C8.1 slewDict slewState ⟨[1], [1]⟩ 1 1 rfl (Or.inl rfl) rfl rfl rfl⟩

/-- Claim C10: a present-but-zero `vmeas` is treated exactly as an
unspecified one — `calcZ` with `vmeas = 0` coincides with `calcZ`
without `vmeas` on every curve, so the threshold falls back to half of
the curve's own maximum voltage (the concrete curve crosses `1/2`, its
own half-maximum, at index 1 giving 60 Ω, while a literal threshold of
0 would cross at index 0). -/
theorem claim_C10 :
    (∀ (vs cs : List ℚ), calcZ (some 0) vs cs = calcZ none vs cs) ∧
    calcZ (some 0) [0, 3/5, 1] [0, 1/100, 1/50] = .ok 60 ∧
    specLocalR ((1 : ℚ) / 2) [0, 3/5, 1] [0, 1/100, 1/50] = some 60 ∧
    specLocalR 0 [0, 3/5, 1] [0, 1/100, 1/50] = none := by
  refine ⟨fun vs cs => ?_, ?_, ?_, ?_⟩
  · simp [calcZ, optTruthy]
  · simp only [calcZ, optTruthy, pyMax, pyMaxO, bind, Except.bind, Except.map]
    norm_num
    simp only [List.findIdx?, pyGet, List.get?]
    norm_num
  · norm_num [specLocalR, bind, Option.bind, List.findIdx?, List.get?]
    have e1 : ([0, 1/100, 1/50] : List ℚ)[1] = 1/100 := rfl
    have e2 : ([0, 3/5, 1] : List ℚ)[1] = 3/5 := rfl
    rw [e1, e2]
    norm_num
  · norm_num [specLocalR, bind, Option.bind, List.findIdx?, List.get?]

/-- The double partition of `ModelBase.__init__` followed by
`_mod_changed`'s platform selection picks exactly the file list of the
first table entry matching the caller's platform. -/
lemma bucketOf_eq_filter (tbl : List ExecEntry) (ot ob : String) :
    bucketOf (some tbl) ot ob = getFiles (tbl.filter (entryMatches ot ob)) := by
  unfold bucketOf splitAll splitExecs
  rcases hw : (pyLower ot == "windows") with _ | _ <;>
    rcases hb : (ob == "64bit") with _ | _ <;>
      simp only [hw, hb, List.partition_eq_filter_filter, if_true, if_false,
        Bool.false_eq_true, List.filter_filter] <;>
      · refine congrArg getFiles (List.filter_congr fun e _ => ?_)
        simp only [entryMatches, hw, hb, Function.comp]
        cases is64 e <;> cases isWin e <;> rfl

/-- A `find?` hit is the head of the corresponding `filter`. -/
lemma filter_cons_of_find {α : Type} (p : α → Bool) (l : List α) (e : α)
    (h : l.find? p = some e) : ∃ t, l.filter p = e :: t := by
  induction l with
  | nil => cases h
  | cons a rest ih =>
    by_cases ha : p a
    · rw [List.find?_cons_of_pos _ ha] at h
      cases h
      exact ⟨rest.filter p, by rw [List.filter_cons_of_pos ha]⟩
    · rw [List.find?_cons_of_neg _ ha] at h
      obtain ⟨t, ht⟩ := ih h
      exact ⟨t, by rw [List.filter_cons_of_neg ha, ht]⟩

/-- Claim C3, amended: with no platform-matching table entry the
resolver returns the empty pair without error; with a matching entry
whose file list has at least two paths it returns that entry's first
two paths in table order; a matching entry with exactly one path
raises an index error, and one with an empty file list yields the
empty pair without error. -/
theorem claim_C3_amended :
    (∀ (am : Option (List ExecEntry)) (ot ob : String),
       (∀ tbl, am = some tbl → ∀ e ∈ tbl, entryMatches ot ob e = false) →
       resolveExec am ot ob = .ok ("", "")) ∧
    (∀ (tbl : List ExecEntry) (ot ob : String) (e : ExecEntry),
       tbl.find? (entryMatches ot ob) = some e → 2 ≤ e.2.length →
       ∃ dll ami rest, e.2 = dll :: ami :: rest ∧
         resolveExec (some tbl) ot ob = .ok (dll, ami)) ∧
    (∀ (tbl : List ExecEntry) (ot ob : String) (e : ExecEntry) (f : String),
       tbl.find? (entryMatches ot ob) = some e → e.2 = [f] →
       resolveExec (some tbl) ot ob =
         .error "IndexError: list index out of range") ∧
    (∀ (tbl : List ExecEntry) (ot ob : String) (e : ExecEntry),
       tbl.find? (entryMatches ot ob) = some e → e.2 = [] →
       resolveExec (some tbl) ot ob = .ok ("", "")) := by
  refine ⟨?_, ?_, ?_, ?_⟩
  · intro am ot ob hnone
    rcases am with _ | tbl
    · unfold resolveExec bucketOf splitAll
      rcases hw : (pyLower ot == "windows") with _ | _ <;>
        rcases hb : (ob == "64bit") with _ | _ <;>
          simp [hw, hb, getFiles]
    · have hfilter : tbl.filter (entryMatches ot ob) = [] :=
        List.filter_eq_nil_iff.2 (fun e he => by
          simp [hnone tbl rfl e he])
      unfold resolveExec
      rw [bucketOf_eq_filter, hfilter]
      rfl
  · intro tbl ot ob e hfind hlen
    obtain ⟨t, ht⟩ := filter_cons_of_find _ _ _ hfind
    obtain ⟨emeta, files⟩ := e
    rcases files with _ | ⟨dll, rest1⟩
    · exact absurd hlen (by simp)
    · rcases rest1 with _ | ⟨ami, rest⟩
      · exact absurd hlen (by simp)
      · refine ⟨dll, ami, rest, rfl, ?_⟩
        unfold resolveExec
        rw [bucketOf_eq_filter, ht]
        simp [getFiles]
  · intro tbl ot ob e f hfind hf
    obtain ⟨t, ht⟩ := filter_cons_of_find _ _ _ hfind
    unfold resolveExec
    rw [bucketOf_eq_filter, ht]
    rw [show getFiles (e :: t) = e.2 from rfl, hf]
    rfl
  · intro tbl ot ob e hfind hf
    obtain ⟨t, ht⟩ := filter_cons_of_find _ _ _ hfind
    unfold resolveExec
    rw [bucketOf_eq_filter, ht]
    rw [show getFiles (e :: t) = e.2 from rfl, hf]
    rfl

/-- An algorithmic-model table whose matching entry lists only a single
file path. -/
def oneFileTable : List ExecEntry := [(("Windows", 64), ["model.dll"])]

/-- Counterexample to claim C3 as stated: a matching entry exists, yet
resolution raises an index error instead of returning two paths. -/
theorem claim_C3_counterexample :
    entryMatches "Windows" "64bit" (("Windows", 64), ["model.dll"]) = true ∧
    resolveExec (some oneFileTable) "Windows" "64bit" =
      .error "IndexError: list index out of range" :=
  ⟨rfl, rfl⟩

/-- A matching table with the full executable pair, for the witness. -/
def twoFileTable : List ExecEntry :=
  [(("Linux", 32), ["other.so", "other.ami"]),
   (("Windows", 64), ["model.dll", "model.ami"])]

/-- A matching table entry carrying no file paths at all. -/
def emptyFileTable : List ExecEntry := [(("Windows", 64), [])]

/-- Witness for claim C3 (amended): no match on one platform yields the
empty pair; the exact match yields the two paths in table order; a
one-path match raises; an empty-list match yields the empty pair. -/
theorem claim_C3_witness :
    resolveExec (some twoFileTable) "Darwin" "64bit" = .ok ("", "") ∧
    (∃ dll ami rest,
      ((("Windows", 64), ["model.dll", "model.ami"]) : ExecEntry).2 =
        dll :: ami :: rest ∧
      resolveExec (some twoFileTable) "Windows" "64bit" = .ok (dll, ami)) ∧
    resolveExec (some oneFileTable) "Windows" "64bit" =
      .error "IndexError: list index out of range" ∧
    resolveExec (some emptyFileTable) "Windows" "64bit" = .ok ("", "") :=
  ⟨claim_C3_amended.1 (some twoFileTable) "Darwin" "64bit"
     (fun tbl htbl e he => by
        cases htbl
        fin_cases he <;> rfl),
   claim_C3_amended.2.1 twoFileTable "Windows" "64bit"
     (("Windows", 64), ["model.dll", "model.ami"]) rfl (by decide),
   claim_C3_amended.2.2.1 oneFileTable "Windows" "64bit"
     (("Windows", 64), ["model.dll"]) "model.dll" rfl rfl,
   claim_C3_amended.2.2.2 emptyFileTable "Windows" "64bit"
     (("Windows", 64), []) rfl rfl⟩

/-- Claim C9: when the platform-matching file list is non-empty, both
its first and second elements are read unconditionally — a single-entry
list raises an index error, and at least two entries are required for
the no-error guarantee. -/
theorem claim_C9 :
    (∀ (am : Option (List ExecEntry)) (ot ob : String) (fn : String),
       bucketOf am ot ob = [fn] →
       resolveExec am ot ob = .error "IndexError: list index out of range") ∧
    (∀ (am : Option (List ExecEntry)) (ot ob : String)
       (dll ami : String) (rest : List String),
       bucketOf am ot ob = dll :: ami :: rest →
       resolveExec am ot ob = .ok (dll, ami)) := by
  constructor
  · intro am ot ob fn hb
    unfold resolveExec
    rw [hb]
    rfl
  · intro am ot ob dll ami rest hb
    unfold resolveExec
    rw [hb]
    rfl

/-- Witness for claim C9: the singleton-file table raises, and the
two-file table resolves to the pair. -/
theorem claim_C9_witness :
    bucketOf (some oneFileTable) "Windows" "64bit" = ["model.dll"] ∧
    resolveExec (some oneFileTable) "Windows" "64bit" =
      .error "IndexError: list index out of range" ∧
    bucketOf (some twoFileTable) "Windows" "64bit" =
      ["model.dll", "model.ami"] ∧
    resolveExec (some twoFileTable) "Windows" "64bit" =
      .ok ("model.dll", "model.ami") :=
  ⟨rfl, claim_C9.1 (some oneFileTable) "Windows" "64bit" "model.dll" rfl,
   rfl, claim_C9.2 (some twoFileTable) "Windows" "64bit"
     "model.dll" "model.ami" [] rfl⟩

/-- A kept element of a possibly-raising filter satisfied the
predicate. -/
lemma optionFilter_mem {α : Type} (p : α → Option Bool) (l : List α)
    (out : List α) (h : optionFilter p l = some out) :
    ∀ x ∈ out, p x = some true := by
  induction l generalizing out with
  | nil =>
    cases h
    intro x hx
    cases hx
  | cons y ys ih =>
    intro x hx
    unfold optionFilter at h
    rcases hpy : p y with _ | b <;> rw [hpy] at h
    · cases h
    · rcases hrest : optionFilter p ys with _ | rest <;> rw [hrest] at h
      · cases h
      · cases h
        cases b with
        | true =>
          rcases hx with _ | hx
          · exact hpy
          · exact ih rest hrest x (by assumption)
        | false => exact ih rest hrest x hx

/-- The direction test of `pin_ok` for the receive side is the boolean
negation of the transmit side whenever the transmit side evaluates. -/
lemma pin_ok_negate (d : Descriptor) (ms : List (String × ModelState))
    (pins : List (String × String × List (String × ℚ)))
    (pname : String) (b : Bool)
    (h : pin_ok d ms true pins pname = some b) :
    pin_ok d ms false pins pname = some (!b) := by
  unfold pin_ok at h ⊢
  rcases h1 : alookup pins pname with _ | pr <;>
    simp only [h1, Option.bind_eq_bind, Option.some_bind, Option.none_bind]
      at h ⊢
  · cases h
  · rcases h2 : (get_models d pr.1).get? 0 with _ | m0 <;>
      simp only [h2, Option.some_bind, Option.none_bind] at h ⊢
    · cases h
    · rcases h3 : alookup ms m0 with _ | mdl <;>
        simp only [h3, Option.some_bind, Option.none_bind] at h ⊢
      · cases h
      · simp only [if_true, Option.pure_def] at h
        cases h
        simp

/-- Claim C5: for every component, the transmit pin set and the receive
pin set are disjoint — a pin kept for `is_tx = true` satisfies the
Output/I_O test and is therefore dropped for `is_tx = false`. -/
theorem claim_C5 (d : Descriptor) (ms : List (String × ModelState))
    (comp : CompObj) (tx_pins rx_pins : List String)
    (htx : get_pins d ms true comp = some tx_pins)
    (hrx : get_pins d ms false comp = some rx_pins) :
    ∀ p ∈ tx_pins, p ∉ rx_pins := by
  intro p hp hq
  have h1 : pin_ok d ms true comp.pins p = some true :=
    optionFilter_mem _ _ _ htx p hp
  have h2 : pin_ok d ms false comp.pins p = some true :=
    optionFilter_mem _ _ _ hrx p hq
  have h3 := pin_ok_negate d ms comp.pins p true h1
  rw [h2] at h3
  cases h3

/-- An Output model value for the selection fixtures. -/
def mOut : ModelState :=
  { mtype := "Output", vmeas := none, vrange := [2], slew := none,
    zout := none, exec32Wins := [], exec32Lins := [], exec64Wins := [],
    exec64Lins := [], subDict := {} }

/-- An Input model value for the selection fixtures. -/
def mIn : ModelState :=
  { mtype := "Input", vmeas := none, vrange := [2], slew := none,
    zout := none, exec32Wins := [], exec32Lins := [], exec64Wins := [],
    exec64Lins := [], subDict := {} }

/-- The models dictionary of the selection fixture. -/
def fixtureModels : List (String × ModelState) :=
  [("outm", mOut), ("inm", mIn)]

/-- Component A: one transmit-capable pin and one receive pin. -/
def compA : CompObj :=
  { mfr := "Acme", pkg := "QFN", pins := [("1", "outm", []), ("2", "inm", [])] }

/-- Component B: a selector-driven pin and a receive pin. -/
def compB : CompObj :=
  { mfr := "Acme", pkg := "QFN", pins := [("3", "selm", []), ("4", "inm", [])] }

/-- A two-component descriptor fixture with one model selector. -/
def fixtureDesc : Descriptor :=
  { components := some [("A", compA), ("B", compB)],
    models := some fixtureModels,
    model_selectors := some [("selm", [("outm", ""), ("inm", "")])] }

/-- Witness for claim C5 on component A of the fixture. -/
theorem claim_C5_witness :
    get_pins fixtureDesc fixtureModels true compA = some ["1"] ∧
    get_pins fixtureDesc fixtureModels false compA = some ["2"] ∧
    "1" ∉ ["2"] :=
  ⟨rfl, rfl,
   claim_C5 fixtureDesc fixtureModels compA ["1"] ["2"] rfl rfl "1"
     (by decide)⟩

/-- Component A2 of the stale-cascade fixture: its only valid pin is
named "1" and binds model `outm` directly. -/
def compA2 : CompObj :=
  { mfr := "Acme", pkg := "QFN", pins := [("1", "outm", [])] }

/-- Component B2 of the stale-cascade fixture: its only valid pin is
also named "1" but binds the selector `selm`. -/
def compB2 : CompObj :=
  { mfr := "Acme", pkg := "QFN", pins := [("1", "selm", [])] }

/-- A two-component descriptor whose components share their first valid
pin name while binding different models. -/
def fixtureDesc2 : Descriptor :=
  { components := some [("A2", compA2), ("B2", compB2)],
    models := some fixtureModels,
    model_selectors := some [("selm", [("outm", ""), ("inm", "")])] }

/-- The selection state while component A2 is selected. -/
def stA2 : SelState :=
  { comp := "A2", pin := "1", mod := "outm", pins := ["1"],
    models := ["outm"] }

/-- The state after changing the component to B2: the pin name is
unchanged, so no pin-change notification fires and the model list stays
stale. -/
def stStale : SelState :=
  { comp := "B2", pin := "1", mod := "outm", pins := ["1"],
    models := ["outm"] }

/-- Counterexample to claim C4 as stated: changing the component to B2
keeps the pin name "1", the Traits notification does not fire, and the
model set is left at the stale `["outm"]` instead of the selector's
`["outm", "inm"]`. -/
theorem claim_C4_counterexample :
    2 ≤ ((fixtureDesc2.components).getD []).length ∧
    comp_changed fixtureDesc2 fixtureModels true stA2 "B2" =
      some stStale ∧
    alookup compB2.pins "1" = some ("selm", []) ∧
    get_models fixtureDesc2 "selm" = ["outm", "inm"] ∧
    stStale.models = ["outm"] ∧
    ¬stStale.models = ["outm", "inm"] := by
  refine ⟨by decide, rfl, rfl, rfl, rfl, by decide⟩

/-- Claim C4, amended: changing the component recomputes the valid pin
set and assigns its first element to the pin selection; the model set
and model selection are then recomputed and snapped to their first
elements exactly when that first pin differs from the previously
selected pin (the Traits notification does not fire on an unchanged
value, leaving the model set and model selection as they were);
changing only the pin recomputes only the model set (component and pin
set untouched) and snaps the model selection to its first element. -/
theorem claim_C4_amended :
    (∀ (d : Descriptor) (ms : List (String × ModelState)) (tx : Bool)
       (st st' : SelState) (newComp : String),
       2 ≤ (d.components.getD []).length →
       comp_changed d ms tx st newComp = some st' →
       ∃ comps compObj plist p0,
         d.components = some comps ∧
         alookup comps newComp = some compObj ∧
         get_pins d ms tx compObj = some plist ∧
         plist.get? 0 = some p0 ∧
         ((p0 = st.pin ∧
           st' = { st with comp := newComp, pins := plist, pin := p0 }) ∨
          (p0 ≠ st.pin ∧
           ∃ pr m0,
             alookup compObj.pins p0 = some pr ∧
             (get_models d pr.1).get? 0 = some m0 ∧
             st' = { comp := newComp, pin := p0, mod := m0,
                     pins := plist, models := get_models d pr.1 }))) ∧
    (∀ (d : Descriptor) (compObj : CompObj) (st st' : SelState)
       (newPin : String),
       pin_changed d compObj st newPin = some st' →
       ∃ pr m0,
         alookup compObj.pins newPin = some pr ∧
         (get_models d pr.1).get? 0 = some m0 ∧
         st'.comp = st.comp ∧ st'.pins = st.pins ∧
         st' = { st with
                 pin := newPin, mod := m0, models := get_models d pr.1 }) := by
  constructor
  · intro d ms tx st st' newComp _hn h
    unfold comp_changed at h
    rcases h1 : d.components with _ | comps <;>
      simp only [h1, Option.bind_eq_bind, Option.some_bind,
        Option.none_bind] at h
    · cases h
    · rcases h2 : alookup comps newComp with _ | compObj <;>
        simp only [h2, Option.some_bind, Option.none_bind] at h
      · cases h
      · rcases h3 : get_pins d ms tx compObj with _ | plist <;>
          simp only [h3, Option.some_bind, Option.none_bind] at h
        · cases h
        · rcases h4 : plist.get? 0 with _ | p0 <;>
            simp only [h4, Option.some_bind, Option.none_bind] at h
          · cases h
          · by_cases hp : p0 = st.pin
            · rw [if_pos hp] at h
              simp only [Option.pure_def] at h
              cases h
              exact ⟨comps, compObj, plist, p0, rfl, h2, h3, h4,
                Or.inl ⟨hp, rfl⟩⟩
            · rw [if_neg hp] at h
              unfold pin_changed at h
              rcases h5 : alookup compObj.pins p0 with _ | pr <;>
                simp only [h5, Option.bind_eq_bind, Option.some_bind,
                  Option.none_bind] at h
              · cases h
              · rcases h6 : (get_models d pr.1).get? 0 with _ | m0 <;>
                  simp only [h6, Option.some_bind, Option.none_bind] at h
                · cases h
                · refine ⟨comps, compObj, plist, p0, rfl, h2, h3, h4,
                    Or.inr ⟨hp, pr, m0, h5, h6, ?_⟩⟩
                  cases h
                  rfl
  · intro d compObj st st' newPin h
    unfold pin_changed at h
    rcases h1 : alookup compObj.pins newPin with _ | pr <;>
      simp only [h1, Option.bind_eq_bind, Option.some_bind,
        Option.none_bind] at h
    · cases h
    · rcases h2 : (get_models d pr.1).get? 0 with _ | m0 <;>
        simp only [h2, Option.some_bind, Option.none_bind] at h
      · cases h
      · refine ⟨pr, m0, rfl, h2, ?_, ?_, ?_⟩ <;> cases h <;> rfl

/-- The selection state before the component change. -/
def st0 : SelState :=
  { comp := "A", pin := "1", mod := "outm", pins := ["1"],
    models := ["outm"] }

/-- The selection state after changing the component to B. -/
def stB : SelState :=
  { comp := "B", pin := "3", mod := "outm", pins := ["3"],
    models := ["outm", "inm"] }

/-- Witness for claim C4 (amended): changing the component to B moves
the pin selection from "1" to "3", so the notification fires and the
model selections snap; changing only the pin snaps the model
selection. -/
theorem claim_C4_witness :
    (2 ≤ ((fixtureDesc.components).getD []).length ∧
     comp_changed fixtureDesc fixtureModels true st0 "B" = some stB ∧
     ∃ comps compObj plist p0,
       fixtureDesc.components = some comps ∧
       alookup comps "B" = some compObj ∧
       get_pins fixtureDesc fixtureModels true compObj = some plist ∧
       plist.get? 0 = some p0 ∧
       ((p0 = st0.pin ∧
         stB = { st0 with comp := "B", pins := plist, pin := p0 }) ∨
        (p0 ≠ st0.pin ∧
         ∃ pr m0,
           alookup compObj.pins p0 = some pr ∧
           (get_models fixtureDesc pr.1).get? 0 = some m0 ∧
           stB = { comp := "B", pin := p0, mod := m0,
                   pins := plist, models := get_models fixtureDesc pr.1 }))) ∧
    (pin_changed fixtureDesc compA st0 "2" =
       some { st0 with pin := "2", mod := "inm", models := ["inm"] } ∧
     ∃ pr m0,
       alookup compA.pins "2" = some pr ∧
       (get_models fixtureDesc pr.1).get? 0 = some m0 ∧
       ({ st0 with
          pin := "2", mod := "inm", models := ["inm"] } : SelState).comp =
         st0.comp ∧
       ({ st0 with
          pin := "2", mod := "inm", models := ["inm"] } : SelState).pins =
         st0.pins ∧
       ({ st0 with pin := "2", mod := "inm", models := ["inm"] } : SelState) =
         { st0 with
           pin := "2", mod := m0, models := get_models fixtureDesc pr.1 }) :=
  ⟨⟨by decide, rfl,
    claim_C4_amended.1 fixtureDesc fixtureModels true st0 stB "B"
      (by decide) rfl⟩,
   ⟨rfl,
    claim_C4_amended.2 fixtureDesc compA st0
      { st0 with pin := "2", mod := "inm", models := ["inm"] } "2" rfl⟩⟩

/-- Boolean In parameter for the schema-count fixture. -/
def pIn : AMIParameter :=
  { pusage := "In", ptype := "Boolean", pformat := "Value",
    pvalue := .b true }

/-- Out parameter (not user-editable) for the schema-count fixture. -/
def pOut : AMIParameter :=
  { pusage := "Out", ptype := "Float", pformat := "Value",
    pvalue := .num 1 }

/-- Info parameter (not user-editable) for the schema-count fixture. -/
def pInfo : AMIParameter :=
  { pusage := "Info", ptype := "String", pformat := "Value",
    pvalue := .s "x" }

/-- A parameter tree with exactly one In leaf, one Out leaf, and one
Info leaf. -/
def exampleTree : AMIParamTree :=
  .node (.cons "a" (.leaf pIn)
    (.cons "b" (.leaf pOut) (.cons "c" (.leaf pInfo) .nil)))

/-- Claim C7: the schema builder emits no field for a leaf whose usage
is not In or InOut; the fixture with one In, one Out, and one Info leaf
yields exactly one field (one trait and one named item). -/
theorem claim_C7 :
    (∀ (pname : String) (p : AMIParameter) (fc : Bool),
       ¬(p.pusage = "In" ∨ p.pusage = "InOut") →
       make_gui_items pname (.leaf p) fc = some ([], [])) ∧
    (make_gui_items "root" exampleTree true).map
      (fun r => r.2.length) = some 1 := by
  constructor
  · intro pname p fc h
    simp [make_gui_items, leafGui, h]
  · rfl

/-- Witness for claim C7 at the Out leaf of the fixture. -/
theorem claim_C7_witness :
    ¬(pOut.pusage = "In" ∨ pOut.pusage = "InOut") ∧
    make_gui_items "b" (.leaf pOut) false = some ([], []) :=
  ⟨by decide, claim_C7.1 "b" pOut false (by decide)⟩

/-- A successful `ModelBase.__init__` copies `vmeas` unchanged and
leaves `zout` unset. -/
lemma modelBaseInit_fields (d : SubDict) (st : ModelState)
    (h : modelBaseInit d = .ok st) :
    st.vmeas = d.vmeas ∧ st.zout = none := by
  unfold modelBaseInit at h
  simp only [bind, Except.bind, pure, Except.pure] at h
  split at h
  next s heq =>
    split at h
    · exact absurd h (by simp)
    · split at h
      next l hl =>
        split at h
        · exact absurd h (by simp)
        · split at h
          · split at h
            · exact absurd h (by simp)
            · split at h
              · exact absurd h (by simp)
              next ramp hramp =>
                split at h
                · exact absurd h (by simp)
                next vr hvr =>
                  split at h
                  · exact absurd h (by simp)
                  next vf hvf =>
                    cases h
                    exact ⟨rfl, rfl⟩
          · cases h
            exact ⟨rfl, rfl⟩
      next hl => exact absurd h (by simp)
  next heq => exact absurd h (by simp)

/-- A successful `proc_iv` yields the three per-trace resistances, the
first being the typical-trace one. -/
lemma proc_iv_zs_ok (vm : Option ℚ) (xs : List IVSample) (L : List ℚ)
    (h : proc_iv_zs vm xs = .ok L) :
    ∃ a b c, L = [a, b, c] ∧
      calcZ vm (xs.map (fun s => s.1)) (xs.map (fun s => s.2.1)) = .ok a := by
  unfold proc_iv_zs at h
  simp only [bind, Except.bind, pure, Except.pure] at h
  split at h
  · exact absurd h (by simp)
  · split at h
    next e he => exact absurd h (by simp)
    next a ha =>
      split at h
      next e he => exact absurd h (by simp)
      next b hb =>
        split at h
        next e he => exact absurd h (by simp)
        next c hc =>
          cases h
          exact ⟨a, b, c, rfl, ha⟩

/-- A successful `zout` derivation is the average of the two
typical-trace resistances. -/
lemma zoutOf_ok (vm : Option ℚ) (pd pu : List IVSample) (z : ℚ)
    (h : zoutOf vm pd pu = .ok z) :
    ∃ zpd zpu,
      calcZ vm (pd.map (fun s => s.1)) (pd.map (fun s => s.2.1)) = .ok zpd ∧
      calcZ vm (pu.map (fun s => s.1)) (pu.map (fun s => s.2.1)) = .ok zpu ∧
      z = (zpd + zpu) / 2 := by
  unfold zoutOf at h
  simp only [bind, Except.bind, pure, Except.pure] at h
  split at h
  next e he => exact absurd h (by simp)
  next pdzs hpd =>
    split at h
    next e he => exact absurd h (by simp)
    next puzs hpu =>
      obtain ⟨a, b, c, hL, ha⟩ := proc_iv_zs_ok vm pd pdzs hpd
      obtain ⟨a2, b2, c2, hL2, ha2⟩ := proc_iv_zs_ok vm pu puzs hpu
      subst hL hL2
      split at h
      next e he => exact absurd h (by simp)
      next z0 hz0 =>
        split at h
        next e he => exact absurd h (by simp)
        next z1 hz1 =>
          cases h
          have e0 : z0 = a := by
            have : exGet [a, b, c] 0 = .ok a := rfl
            rw [this] at hz0
            cases hz0
            rfl
          have e1 : z1 = a2 := by
            have : exGet [a2, b2, c2] 0 = .ok a2 := rfl
            rw [this] at hz1
            cases hz1
            rfl
          refine ⟨z0, z1, ?_, ?_, rfl⟩
          · rw [e0]; exact ha
          · rw [e1]; exact ha2

/-- A successful `Model.__init__` with a set `zout` obtained it from
`zoutOf` on the stored curves with the stored `vmeas`. -/
lemma modelInit_zout (d : SubDict) (st : ModelState) (z : ℚ)
    (h : modelInit d = .ok st) (hz : st.zout = some z) :
    ∃ pd pu, d.pulldown = some pd ∧ d.pullup = some pu ∧
      zoutOf d.vmeas pd pu = .ok z := by
  unfold modelInit at h
  simp only [bind, Except.bind, pure, Except.pure] at h
  split at h
  next e he => exact absurd h (by simp)
  next base hbase =>
    have hfields := modelBaseInit_fields d base hbase
    split at h
    · split at h
      next pd pu hpd hpu =>
        split at h
        next e he => exact absurd h (by simp)
        next z0 hz0 =>
          cases h
          simp only at hz
          cases hz
          exact ⟨pd, pu, hpd, hpu, by rw [hfields.1] at hz0; exact hz0⟩
      next h1 h2 => exact absurd h (by simp)
    · cases h
      rw [hfields.2] at hz
      cases hz

/-- `pyGet` at a non-negative index is plain list indexing. -/
lemma pyGet_nat (l : List ℚ) (n : Nat) (x : ℚ) (h : l.get? n = some x) :
    pyGet l (n : Int) = .ok x := by
  unfold pyGet
  rw [if_pos (Int.ofNat_nonneg n)]
  simp only [Int.toNat_natCast, h]

/-- `pyGet` at `i - 1` for `1 ≤ i` is plain list indexing at `i - 1`. -/
lemma pyGet_pred (l : List ℚ) (i : Nat) (hi : 1 ≤ i) (x : ℚ)
    (h : l.get? (i - 1) = some x) : pyGet l ((i : Int) - 1) = .ok x := by
  have hcast : ((i : Int) - 1) = ((i - 1 : Nat) : Int) := by omega
  rw [hcast]
  exact pyGet_nat l (i - 1) x h

/-- Whenever the spec-side local resistance (with the per-branch own
threshold) is defined and `vmeas` is not a present zero, `calcZ`
computes exactly that value. -/
lemma calcZ_of_spec (vmeas : Option ℚ) (vs cs : List ℚ) (r : ℚ)
    (hv : vmeas ≠ some 0)
    (hs : specLocalROwn vmeas vs cs = some r) :
    calcZ vmeas vs cs = .ok r := by
  unfold specLocalROwn at hs
  simp only [bind, Option.bind_eq_bind, Option.some_bind,
    Option.none_bind] at hs
  rcases ht : ownThreshold vmeas vs with _ | t <;>
    simp only [ht, Option.some_bind, Option.none_bind] at hs
  · cases hs
  · unfold specLocalR at hs
    simp only [bind, Option.bind_eq_bind, Option.some_bind,
      Option.none_bind] at hs
    rcases hidx : vs.findIdx? (fun v => decide (t ≤ v)) with _ | i <;>
      simp only [hidx, Option.some_bind, Option.none_bind] at hs
    · cases hs
    · by_cases h1 : 1 ≤ i
      case neg => rw [if_neg h1] at hs; cases hs
      rw [if_pos h1] at hs
      rcases hv1 : vs.get? i with _ | v1 <;>
        simp only [hv1, Option.some_bind, Option.none_bind] at hs
      · cases hs
      rcases hv0 : vs.get? (i - 1) with _ | v0 <;>
        simp only [hv0, Option.some_bind, Option.none_bind] at hs
      · cases hs
      rcases hc1 : cs.get? i with _ | c1 <;>
        simp only [hc1, Option.some_bind, Option.none_bind] at hs
      · cases hs
      rcases hc0 : cs.get? (i - 1) with _ | c0 <;>
        simp only [hc0, Option.some_bind, Option.none_bind] at hs
      · cases hs
      by_cases hden : c1 - c0 = 0
      case pos => rw [if_pos hden] at hs; cases hs
      rw [if_neg hden] at hs
      have hr : r = |(v1 - v0) / (c1 - c0)| := by cases hs; rfl
      unfold calcZ
      simp only [bind, Except.bind, pure, Except.pure]
      rcases vmeas with _ | v
      · simp only [optTruthy, Bool.false_eq_true, if_false]
        unfold ownThreshold at ht
        rcases hm : pyMaxO vs with _ | m <;> rw [hm] at ht
        · cases ht
        · simp only [Option.map_some'] at ht
          have htm : m / 2 = t := by cases ht; rfl
          unfold pyMax
          rw [hm]
          simp only [Except.map]
          rw [htm]
          simp only [hidx]
          simp only [pyGet_nat vs i v1 hv1, pyGet_pred vs i h1 v0 hv0,
            pyGet_nat cs i c1 hc1, pyGet_pred cs i h1 c0 hc0]
          rw [if_neg hden, hr]
      · have hvne : v ≠ 0 := fun hh => hv (by rw [hh])
        unfold ownThreshold at ht
        have htv : v = t := by cases ht; rfl
        simp only [optTruthy]
        rw [if_pos (by simp [hvne])]
        simp only [Option.getD_some]
        rw [htv]
        simp only [hidx]
        simp only [pyGet_nat vs i v1 hv1, pyGet_pred vs i h1 v0 hv0,
          pyGet_nat cs i c1 hc1, pyGet_pred cs i h1 c0 hc0]
        rw [if_neg hden, hr]

/-- Evaluation rule for `Model.__init__` on an Output/I_O model with
known base state and known impedance. -/
lemma modelInit_eval (d : SubDict) (base : ModelState)
    (pd pu : List IVSample) (z : ℚ)
    (hbase : modelBaseInit d = .ok base)
    (hmt : (pyLower base.mtype == "output" || pyLower base.mtype == "i/o") =
      true)
    (hpd : d.pulldown = some pd) (hpu : d.pullup = some pu)
    (hz : zoutOf base.vmeas pd pu = .ok z) :
    modelInit d = .ok { base with zout := some z } := by
  unfold modelInit
  simp only [bind, Except.bind, pure, Except.pure]
  simp only [hbase, hmt, if_true, hpd, hpu, hz]

/-- The pulldown curve of the C1 counterexample: maximum voltage 1. -/
def pdCurve : List IVSample := [(0, 0, 0, 0), (1, 1/50, 1/50, 1/50)]

/-- The pullup curve of the C1 counterexample: maximum voltage 2, with
a sample between the two candidate thresholds. -/
def puCurve : List IVSample :=
  [(0, 0, 0, 0), (9/10, 3/1000, 3/1000, 3/1000), (2, 1/50, 1/50, 1/50)]

/-- An Output model without `vmeas` whose pullup maximum voltage
differs from its pulldown maximum voltage. -/
def cexDict : SubDict :=
  { model_type := some "Output", voltage_range := some [2],
    ramp := some ⟨[1], [1]⟩, vmeas := none,
    pulldown := some pdCurve, pullup := some puCurve }

/-- The base state produced by `modelBaseInit cexDict`. -/
def cexBase : ModelState :=
  { mtype := "Output", vmeas := none, vrange := [2],
    slew := some ((1 + 1) / 2000000000), zout := none,
    exec32Wins := [], exec32Lins := [], exec64Wins := [],
    exec64Lins := [], subDict := cexDict }

/-- Typical-trace resistance of the counterexample pulldown branch. -/
lemma calcZ_pd : calcZ none [0, 1] [0, 1/50] = .ok 50 := by
  simp only [calcZ, optTruthy, pyMax, pyMaxO, bind, Except.bind, Except.map]
  norm_num
  simp only [List.findIdx?, pyGet, List.get?]
  norm_num

/-- Typical-trace resistance of the counterexample pullup branch with
its own half-maximum threshold 1. -/
lemma calcZ_pu : calcZ none [0, 9/10, 2] [0, 3/1000, 1/50] =
    .ok (1100/17) := by
  simp only [calcZ, optTruthy, pyMax, pyMaxO, bind, Except.bind, Except.map]
  norm_num
  simp only [List.findIdx?, pyGet, List.get?]
  norm_num

/-- `proc_iv` on the counterexample pulldown curve. -/
lemma proc_pd : proc_iv_zs none pdCurve = .ok [50, 50, 50] := by
  unfold proc_iv_zs
  simp only [bind, Except.bind, pure, Except.pure]
  rw [if_neg (by decide : ¬pdCurve.length < 2)]
  simp only [show pdCurve.map (fun s => s.1) = [0, 1] from rfl,
    show pdCurve.map (fun s => s.2.1) = [0, 1/50] from rfl,
    show pdCurve.map (fun s => s.2.2.1) = [0, 1/50] from rfl,
    show pdCurve.map (fun s => s.2.2.2) = [0, 1/50] from rfl,
    calcZ_pd]

/-- `proc_iv` on the counterexample pullup curve. -/
lemma proc_pu : proc_iv_zs none puCurve =
    .ok [1100/17, 1100/17, 1100/17] := by
  unfold proc_iv_zs
  simp only [bind, Except.bind, pure, Except.pure]
  rw [if_neg (by decide : ¬puCurve.length < 2)]
  simp only [show puCurve.map (fun s => s.1) = [0, 9/10, 2] from rfl,
    show puCurve.map (fun s => s.2.1) = [0, 3/1000, 1/50] from rfl,
    show puCurve.map (fun s => s.2.2.1) = [0, 3/1000, 1/50] from rfl,
    show puCurve.map (fun s => s.2.2.2) = [0, 3/1000, 1/50] from rfl,
    calcZ_pu]

/-- The code-side impedance of the counterexample model. -/
lemma zout_cex : zoutOf none pdCurve puCurve =
    .ok ((50 + 1100/17) / 2) := by
  unfold zoutOf
  simp only [bind, Except.bind, pure, Except.pure]
  simp only [proc_pd, proc_pu]
  rfl

/-- Spec-side pulldown resistance at threshold 1/2. -/
lemma specR_pd : specLocalR (1/2) [0, 1] [0, 1/50] = some 50 := by
  norm_num [specLocalR, bind, Option.bind, List.findIdx?, List.get?]
  have e1 : ([0, 1/50] : List ℚ)[1] = 1/50 := rfl
  have e2 : ([0, 1] : List ℚ)[1] = 1 := rfl
  rw [e1, e2]
  norm_num

/-- Spec-side pullup resistance at the pulldown-derived threshold 1/2
(crossing at index 1). -/
lemma specR_pu_claim : specLocalR (1/2) [0, 9/10, 2] [0, 3/1000, 1/50] =
    some 300 := by
  norm_num [specLocalR, bind, Option.bind, List.findIdx?, List.get?]
  have e1 : ([0, 3/1000, 1/50] : List ℚ)[1] = 3/1000 := rfl
  have e2 : ([0, 9/10, 2] : List ℚ)[1] = 9/10 := rfl
  rw [e1, e2]
  norm_num

/-- The claim-side threshold for the counterexample model: half of the
maximum pulldown voltage. -/
lemma claimThresh_cex : claimThreshold none ([0, 1] : List ℚ) =
    some (1/2) := by
  simp only [claimThreshold, pyMaxO, List.foldl]
  norm_num [max_def]

/-- Counterexample to claim C1 as stated: with `vmeas` unspecified the
code thresholds the pullup branch at half of the pullup curve's own
maximum voltage (yielding zout = 975/17 Ω), while the claim's rule
(half of the maximum pulldown voltage for both branches) yields 175 Ω. -/
theorem claim_C1_counterexample :
    (modelInit cexDict).map ModelState.zout = .ok (some (975/17)) ∧
    specZoutClaim none pdCurve puCurve = some 175 ∧
    (975/17 : ℚ) ≠ 175 := by
  refine ⟨?_, ?_, by norm_num⟩
  · have h := modelInit_eval cexDict cexBase pdCurve puCurve
      ((50 + 1100/17) / 2) rfl rfl rfl rfl zout_cex
    rw [h]
    simp only [Except.map]
    have hq : ((50 + 1100/17) / 2 : ℚ) = 975/17 := by norm_num
    rw [hq]
  · unfold specZoutClaim
    simp only [bind, Option.bind_eq_bind, Option.some_bind,
      Option.none_bind]
    rw [show pdCurve.map (fun x => x.1) = [0, 1] from rfl,
        show pdCurve.map (fun x => x.2.1) = [0, 1/50] from rfl,
        show puCurve.map (fun x => x.1) = [0, 9/10, 2] from rfl,
        show puCurve.map (fun x => x.2.1) = [0, 3/1000, 1/50] from rfl]
    simp only [claimThresh_cex, Option.some_bind]
    simp only [specR_pd, specR_pu_claim, Option.some_bind]
    have hq : ((50 + 300) / 2 : ℚ) = 175 := by norm_num
    rw [hq]
    rfl

/-- Claim C1, amended: zout is the average of the pulldown-typical and
pullup-typical local resistances, where each branch's threshold is
`vmeas` when specified (and nonzero) and else half of *that branch's
own* maximum voltage; the crafted branch with `vmeas = 0.6` and samples
`(0.5, 10mA)`, `(0.7, 14mA)` yields 50 Ω on both the spec side and the
code side. -/
theorem claim_C1_amended :
    (∀ (d : SubDict) (pd pu : List IVSample) (st : ModelState) (z z' : ℚ),
       d.pulldown = some pd → d.pullup = some pu → d.vmeas ≠ some 0 →
       modelInit d = .ok st → st.zout = some z →
       specZoutOwn d.vmeas pd pu = some z' →
       z = z') ∧
    specLocalR (3/5) [1/2, 7/10] [1/100, 7/500] = some 50 ∧
    calcZ (some (3/5)) [1/2, 7/10] [1/100, 7/500] = .ok 50 := by
  refine ⟨?_, ?_, ?_⟩
  · intro d pd pu st z z' hpd hpu hv h hz hspec
    obtain ⟨pd', pu', hpd', hpu', hzout⟩ := modelInit_zout d st z h hz
    rw [hpd] at hpd'
    rw [hpu] at hpu'
    cases hpd'
    cases hpu'
    obtain ⟨zpd, zpu, hcpd, hcpu, hzeq⟩ := zoutOf_ok d.vmeas pd pu z hzout
    unfold specZoutOwn at hspec
    simp only [bind, Option.bind_eq_bind, Option.some_bind,
      Option.none_bind] at hspec
    rcases hrpd : specLocalROwn d.vmeas (pd.map fun x => x.1)
        (pd.map fun x => x.2.1) with _ | rpd <;>
      simp only [hrpd, Option.some_bind, Option.none_bind] at hspec
    · cases hspec
    rcases hrpu : specLocalROwn d.vmeas (pu.map fun x => x.1)
        (pu.map fun x => x.2.1) with _ | rpu <;>
      simp only [hrpu, Option.some_bind, Option.none_bind] at hspec
    · cases hspec
    have h1 := calcZ_of_spec d.vmeas _ _ rpd hv hrpd
    have h2 := calcZ_of_spec d.vmeas _ _ rpu hv hrpu
    rw [hcpd] at h1
    rw [hcpu] at h2
    cases h1
    cases h2
    have hz' : z' = (zpd + zpu) / 2 := by cases hspec; rfl
    rw [hzeq, hz']
  · norm_num [specLocalR, bind, Option.bind, List.findIdx?, List.get?]
    have e1 : ([1/100, 7/500] : List ℚ)[1] = 7/500 := rfl
    have e2 : ([1/2, 7/10] : List ℚ)[1] = 7/10 := rfl
    rw [e1, e2]
    norm_num
  · simp only [calcZ, optTruthy, pyMax, pyMaxO, bind, Except.bind,
      Except.map]
    norm_num
    simp only [List.findIdx?, pyGet, List.get?]
    norm_num

/-- Spec-side pulldown resistance with its own half-maximum threshold. -/
lemma specROwn_pd : specLocalROwn none [0, 1] [0, 1/50] = some 50 := by
  unfold specLocalROwn ownThreshold
  have hm : pyMaxO [0, 1] = some 1 := by
    simp only [pyMaxO, List.foldl]
    norm_num [max_def]
  rw [hm]
  simp only [Option.map_some', bind, Option.bind_eq_bind, Option.some_bind]
  exact specR_pd

/-- Spec-side pullup resistance with its own half-maximum threshold 1
(crossing at index 2). -/
lemma specROwn_pu : specLocalROwn none [0, 9/10, 2] [0, 3/1000, 1/50] =
    some (1100/17) := by
  unfold specLocalROwn ownThreshold
  have hm : pyMaxO [0, 9/10, 2] = some 2 := by
    simp only [pyMaxO, List.foldl]
    norm_num [max_def]
  rw [hm]
  simp only [Option.map_some', bind, Option.bind_eq_bind, Option.some_bind]
  have h2 : (2 : ℚ) / 2 = 1 := by norm_num
  rw [h2]
  norm_num [specLocalR, bind, Option.bind, List.findIdx?, List.get?]
  have e1 : ([0, 3/1000, 1/50] : List ℚ)[2] = 1/50 := rfl
  have e2 : ([0, 3/1000, 1/50] : List ℚ)[1] = 3/1000 := rfl
  have e3 : ([0, 9/10, 2] : List ℚ)[2] = 2 := rfl
  have e4 : ([0, 9/10, 2] : List ℚ)[1] = 9/10 := rfl
  simp only [e1, e2, e3, e4]
  norm_num

/-- The spec-side impedance of the counterexample model under the
amended (per-branch) threshold rule: it matches the code. -/
lemma specZoutOwn_cex : specZoutOwn none pdCurve puCurve =
    some ((50 + 1100/17) / 2) := by
  unfold specZoutOwn
  simp only [bind, Option.bind_eq_bind, Option.some_bind, Option.none_bind]
  rw [show pdCurve.map (fun x => x.1) = [0, 1] from rfl,
      show pdCurve.map (fun x => x.2.1) = [0, 1/50] from rfl,
      show puCurve.map (fun x => x.1) = [0, 9/10, 2] from rfl,
      show puCurve.map (fun x => x.2.1) = [0, 3/1000, 1/50] from rfl]
  simp only [specROwn_pd, specROwn_pu, Option.some_bind]
  rfl

/-- Witness for claim C1 (amended) at the counterexample model, where
the code and the amended spec rule agree. -/
theorem claim_C1_witness :
    cexDict.pulldown = some pdCurve ∧ cexDict.pullup = some puCurve ∧
    cexDict.vmeas ≠ some 0 ∧
    modelInit cexDict =
      .ok { cexBase with zout := some ((50 + 1100/17) / 2) } ∧
    ({ cexBase with
       zout := some ((50 + 1100/17) / 2) } : ModelState).zout =
      some ((50 + 1100/17) / 2) ∧
    specZoutOwn cexDict.vmeas pdCurve puCurve =
      some ((50 + 1100/17) / 2) ∧
    ((50 + 1100/17) / 2 : ℚ) = (50 + 1100/17) / 2 := by
  have hmi := modelInit_eval cexDict cexBase pdCurve puCurve
    ((50 + 1100/17) / 2) rfl rfl rfl rfl zout_cex
  have hv : cexDict.vmeas ≠ some 0 := fun hh => by cases hh
  refine ⟨rfl, rfl, hv, hmi, rfl, specZoutOwn_cex, ?_⟩
  exact claim_C1_amended.1 cexDict pdCurve puCurve
    { cexBase with zout := some ((50 + 1100/17) / 2) }
    ((50 + 1100/17) / 2) ((50 + 1100/17) / 2)
    rfl rfl hv hmi rfl specZoutOwn_cex

end PyAMI
